import Mathlib

/-!
Shallow embedding of the parlang/flatjs source-to-source translator
(`parlang.ts`): the layout engine, class-id hash, vtable builder,
lexical collector and the global macro expander, together with proofs
about the claims of the specification.
-/

namespace Flat

/-! ## Data model: type descriptors and layout state -/

inductive DefnKind where
  | Class
  | Struct
  | Primitive
deriving DecidableEq

inductive MethodKind where
  | Virtual
  | Get
  | Set
  | Copy
deriving DecidableEq

inductive PropQual where
  | None
  | Atomic
  | Synchronic
deriving DecidableEq

/-- Field-map entry (`MapEntry` in the source): field name, expand flag,
byte offset, and the bound type descriptor (parametrised so it can be
nested inside the type descriptor itself). -/
structure MapEntryG (α : Type) where
  name : String
  expand : Bool
  offset : Nat
  type : α

/-- Type descriptor as seen by the layout engine and macro expander: a
primitive (`PrimitiveDefn`: align = size) or a user-defined class/struct
(`ClassDefn`/`StructDefn`) with its laid-out size, alignment, accessor
method flags and field map. -/
inductive TypeD where
  | prim (name : String) (size : Nat)
  | user (kind : DefnKind) (name : String) (size : Nat) (align : Nat)
         (hasGet : Bool) (hasSet : Bool) (map : List (MapEntryG TypeD))

abbrev Entry := MapEntryG TypeD

def TypeD.kind : TypeD → DefnKind
  | .prim _ _ => .Primitive
  | .user k _ _ _ _ _ _ => k

def TypeD.tname : TypeD → String
  | .prim n _ => n
  | .user _ n _ _ _ _ _ => n

def TypeD.size : TypeD → Nat
  | .prim _ s => s
  | .user _ _ s _ _ _ _ => s

def TypeD.align : TypeD → Nat
  | .prim _ s => s
  | .user _ _ _ a _ _ _ => a

def TypeD.tmap : TypeD → List Entry
  | .prim _ _ => []
  | .user _ _ _ _ _ _ m => m

def TypeD.hasGetM : TypeD → Bool
  | .prim _ _ => false
  | .user _ _ _ _ g _ _ => g

def TypeD.hasSetM : TypeD → Bool
  | .prim _ _ => false
  | .user _ _ _ _ _ s _ => s

/-- JS `(x + s - 1) & ~(s - 1)`, used by the layout engine with the
power-of-two alignments of this translator: clearing the low bits of
`x + s - 1` is subtracting its remainder mod `s`.  For `s = 0` the JS
mask is `~(-1) = 0` and the whole expression is `0`, matched here by
`n % 0 = n`. -/
def alignUp (x s : Nat) : Nat := (x + s - 1) - ((x + s - 1) % s)

/-- JS object-property assignment `map[name] = e`: replace in place when
the key exists (JS objects keep the first insertion position), append
otherwise. -/
def insertEntry : List Entry → Entry → List Entry
  | [], e => [e]
  | f :: rest, e => if f.name = e.name then e :: rest else f :: insertEntry rest e

/-- Property as the layout pass sees it after type resolution: name,
array flag and the resolved type descriptor. -/
structure PropL where
  name : String
  isArray : Bool
  type : TypeD

structure Layout where
  map : List Entry
  size : Nat
  align : Nat

/-- One iteration of the `for ( var p of d.props )` loop of `layoutDefn`:
array properties are treated as 4-byte class-pointer slots; primitives
align to their own size; struct fields are embedded together with biased
composite copies of the struct's own entries. -/
def layoutOne (st : Layout) (p : PropL) : Layout :=
  let k := if p.isArray then DefnKind.Class else p.type.kind
  match k with
  | .Primitive =>
      let sz := alignUp st.size p.type.size
      { map := insertEntry st.map ⟨p.name, true, sz, p.type⟩,
        size := sz + p.type.size,
        align := Nat.max st.align p.type.align }
  | .Class =>
      let sz := alignUp st.size 4
      { map := insertEntry st.map ⟨p.name, true, sz, TypeD.prim ("int32") 4⟩,
        size := sz + 4,
        align := Nat.max st.align 4 }
  | .Struct =>
      let sz := alignUp st.size p.type.align
      let m1 := insertEntry st.map ⟨p.name, false, sz, p.type⟩
      let m2 := p.type.tmap.foldl
        (fun m f => insertEntry m ⟨p.name ++ "_" ++ f.name, f.expand, sz + f.offset, f.type⟩) m1
      { map := m2, size := sz + p.type.size, align := Nat.max st.align p.type.align }

/-- `layoutDefn` of the source: fold the properties over the starting
state (the struct-size rounding is done by the callers below, as in the
source). -/
def layoutDefn (props : List PropL) (map : List Entry) (size align : Nat) : Layout :=
  props.foldl layoutOne { map := map, size := size, align := align }

/-- `layoutStruct`: start from size 0 / align 0 and round the final size
up to the alignment. -/
def layoutStructD (props : List PropL) : Layout :=
  let l := layoutDefn props [] 0 0
  { map := l.map, size := alignUp l.size l.align, align := l.align }

/-- Inheritance chain of a class: its own properties on top of the
recursively laid-out base (the source's memoized `layoutClass` recursion,
written as pure structural recursion). -/
inductive Chain where
  | root (props : List PropL)
  | child (base : Chain) (props : List PropL)

/-- `layoutClass`: a baseless class starts from size 4 / align 4 (the
reserved class-id slot); an inheriting class starts from a copy of its
base's map, size and alignment. -/
def layoutClassC : Chain → Layout
  | .root props => layoutDefn props [] 4 4
  | .child b props =>
      let l := layoutClassC b
      layoutDefn props l.map l.size l.align

def int32T : TypeD := .prim ("int32") 4
def float32T : TypeD := .prim ("float32") 4
def float64T : TypeD := .prim ("float64") 8

/-- Class `Point { x:int32; y:int32 }` from the spec's scenario 1. -/
def pointProps : List PropL := [⟨"x", false, int32T⟩, ⟨"y", false, int32T⟩]

def pointL : Layout := layoutClassC (.root pointProps)

/-- Struct `Pair { x:float64; y:int32 }` from the spec's scenario 2. -/
def pairProps : List PropL := [⟨"x", false, float64T⟩, ⟨"y", false, int32T⟩]

def pairL : Layout := layoutStructD pairProps

/-- Descriptor of the laid-out struct `Pair`. -/
def pairT : TypeD := .user .Struct ("Pair") pairL.size pairL.align false false pairL.map

/-- Class `PairBox { pad1:float32; pad2:float64; p:Pair; pad3:int32 }`. -/
def pairBoxProps : List PropL :=
  [⟨"pad1", false, float32T⟩, ⟨"pad2", false, float64T⟩,
   ⟨"p", false, pairT⟩, ⟨"pad3", false, int32T⟩]

def pairBoxL : Layout := layoutClassC (.root pairBoxProps)

/-- Degenerate struct with no properties: the source lays it out with
size 0 and alignment 0. -/
def emptyStructL : Layout := layoutStructD []

def emptyStructT : TypeD :=
  .user .Struct ("E") emptyStructL.size emptyStructL.align false false emptyStructL.map

/-- Class `X { e:E; b:int32 }` embedding the empty struct `E`. -/
def clsXProps : List PropL := [⟨"e", false, emptyStructT⟩, ⟨"b", false, int32T⟩]

def clsXL : Layout := layoutClassC (.root clsXProps)

/-- Well-formedness of a property for the amended layout claim: a
non-array primitive field has size at least 1 and a non-array struct
field has alignment at least 1 (true of every struct that transitively
contains a primitive, class-pointer or array field). -/
def propWFb (p : PropL) : Bool :=
  p.isArray ||
    (match p.type with
     | .prim _ s => decide (1 ≤ s)
     | .user k _ sz al _ _ _ =>
        match k with
        | .Struct => decide (1 ≤ al)
        | .Primitive => decide (1 ≤ sz)
        | .Class => true)

def chainProps : Chain → List PropL
  | .root ps => ps
  | .child b ps => chainProps b ++ ps

def chainWFb (c : Chain) : Bool := (chainProps c).all propWFb

/-! ## Class identifiers (`computeClassId`) -/

/-- Character code of `computeClassId`: `A..Z → 0..25`, `a..z → 26..51`,
`0..9 → 52..61`, `_ → 62`, `> → 63`; any other character throws. -/
def charVal (c : Char) : Except String Nat :=
  if 'A' ≤ c ∧ c ≤ 'Z' then .ok (c.toNat - 'A'.toNat)
  else if 'a' ≤ c ∧ c ≤ 'z' then .ok (c.toNat - 'a'.toNat + 26)
  else if '0' ≤ c ∧ c ≤ '9' then .ok (c.toNat - '0'.toNat + 52)
  else if c = '_' then .ok 62
  else if c = '>' then .ok 63
  else .error (("Internal error: Bad character in class name: ") ++ String.mk [c])

/-- JS `n = (((n & 0x1FFFFFF) << 3) | (n >>> 25)) ^ v` on a nonnegative
`n`: `& 0x1FFFFFF` is `% 2^25`, `<< 3` is `* 8` (the result is below
`2^28`, so no 32-bit overflow), and `>>> 25` converts to uint32 first,
hence the `% 2^32`. -/
def classIdStep (n v : Nat) : Nat :=
  (((n % 33554432) * 8) ||| ((n % 4294967296) / 33554432)) ^^^ v

def computeClassIdAux : List Char → Nat → Except String Nat
  | [], n => .ok n
  | c :: cs, n =>
      match charVal c with
      | .error e => .error e
      | .ok v => computeClassIdAux cs (classIdStep n v)

/-- `computeClassId` of the source: start from the name's length and fold
every character through the rotate-and-xor step. -/
def computeClassId (name : String) : Except String Nat :=
  computeClassIdAux name.data name.data.length

/-- Character code table exactly as the spec writes it. -/
def specCode (c : Char) : Nat :=
  if 'A' ≤ c ∧ c ≤ 'Z' then c.toNat - 'A'.toNat
  else if 'a' ≤ c ∧ c ≤ 'z' then c.toNat - 'a'.toNat + 26
  else if '0' ≤ c ∧ c ≤ '9' then c.toNat - '0'.toNat + 52
  else if c = '_' then 62
  else if c = '>' then 63
  else 0

/-- Recurrence step as written in the spec:
`id ← (((id & 0x01FFFFFF) << 3) | (id >>> 25)) ^ v` (with the uint32
conversion of `>>>`). -/
def specStep (id v : Nat) : Nat :=
  (((id &&& 33554431) <<< 3) ||| ((id % 4294967296) >>> 25)) ^^^ v

/-- The spec's recurrence: `id ← len(name)`, then fold each character. -/
def specClassId (s : String) : Nat :=
  s.data.foldl (fun id c => specStep id (specCode c)) s.data.length

def validCharb (c : Char) : Bool :=
  (decide ('A' ≤ c) && decide (c ≤ 'Z')) ||
  (decide ('a' ≤ c) && decide (c ≤ 'z')) ||
  (decide ('0' ≤ c) && decide (c ≤ '9')) ||
  (decide (c = '_')) || (decide (c = '>'))

/-- The class-id registration performed inside `layoutClass`: each class
looks its id up in `knownIds` and fails the layout on a collision,
otherwise registers it. -/
def registerIds : List String → List Nat → Except String (List Nat)
  | [], acc => .ok acc
  | n :: ns, acc =>
      match computeClassId n with
      | .error e => .error e
      | .ok id =>
          if acc.contains id then .error (("Duplicate class ID for ") ++ n)
          else registerIds ns (acc ++ [id])

/-! ## Virtual-table construction -/

/-- Method as the vtable pass sees it: kind and name. -/
structure MethodM where
  kind : MethodKind
  name : String

/-- Snapshot of a class node: name, class id and declared methods. -/
structure CNode where
  name : String
  classId : Nat
  methods : List MethodM

/-- Class subtree: a node together with its direct proper subclasses (the
source's `subclasses` lists, in registration order). -/
inductive CTree where
  | node (n : CNode) (subs : List CTree)

def CTree.top : CTree → CNode
  | .node n _ => n

/-- `ClassDefn.hasMethod`: any declared method of any kind with the given
name. -/
def hasMethod (n : CNode) (name : String) : Bool :=
  n.methods.any (fun m => m.name = name)

/-- `VirtualMethodNameIterator`: walk the class's own methods and then
each ancestor's methods, skipping non-virtual methods, the special name
`init`, and names already produced; the flag records whether the name was
first found on an ancestor. -/
def vnamesMeths (ms : List MethodM) (inh : Bool) (seen : List String) :
    List (String × Bool) × List String :=
  match ms with
  | [] => ([], seen)
  | m :: rest =>
      if m.kind = MethodKind.Virtual ∧ m.name ≠ "init" ∧ ¬ seen.contains m.name then
        let (out, seen') := vnamesMeths rest inh (m.name :: seen)
        ((m.name, inh) :: out, seen')
      else vnamesMeths rest inh seen

def vnamesGroups (gs : List (List MethodM × Bool)) (seen : List String) :
    List (String × Bool) :=
  match gs with
  | [] => []
  | (ms, inh) :: rest =>
      let (out, seen') := vnamesMeths ms inh seen
      out ++ vnamesGroups rest seen'

def virtualNames (cls : CNode) (ancestors : List CNode) : List (String × Bool) :=
  vnamesGroups ((cls.methods, false) :: ancestors.map (fun a => (a.methods, true))) []

/-- `InclusiveSubclassIterator`: the class itself followed by its
transitive subclasses in preorder.  Each visited node is paired with its
path back up to the class (node first, the class last). -/
def preorderPaths : CTree → List CNode → List (List CNode)
  | .node n subs, above =>
      (n :: above) :: preorderPathsList subs (n :: above)
where preorderPathsList : List CTree → List CNode → List (List CNode)
  | [], _ => []
  | t :: ts, ab => preorderPaths t ab ++ preorderPathsList ts ab

/-- `findMethodImplFor`: walk the chain upward looking for a declaration
of `name`.  For the vtable cases `stopAt` is the class's own base, so the
chain handed in runs from the subclass up to the class itself and falls
off its end exactly when the walk reaches `stopAt`; `clsHasBase = false`
means `stopAt` was null, in which case running off the root is the
source's internal error. -/
def findMethodImplFor (chain : List CNode) (clsHasBase : Bool) (name : String) :
    Except String (Option String) :=
  match chain with
  | [] =>
      if clsHasBase then .ok none
      else .error (("Internal error: Method not found: ") ++ name)
  | c :: rest =>
      if hasMethod c name then .ok (some (c.name ++ "." ++ name ++ "_impl"))
      else findMethodImplFor rest clsHasBase name

/-- JS `reverseCases[impl].push(id)` with object insertion order. -/
def addCase (cases : List (String × List Nat)) (impl : String) (id : Nat) :
    List (String × List Nat) :=
  match cases with
  | [] => [(impl, [id])]
  | (k, ids) :: rest =>
      if k = impl then (k, ids ++ [id]) :: rest
      else (k, ids) :: addCase rest impl id

structure VEntry where
  name : String
  cases : List (String × List Nat)
  default_ : Option String

def casesFor (paths : List (List CNode)) (clsHasBase : Bool) (mname : String)
    (acc : List (String × List Nat)) : Except String (List (String × List Nat)) :=
  match paths with
  | [] => .ok acc
  | path :: rest =>
      match findMethodImplFor path clsHasBase mname with
      | .error e => .error e
      | .ok none => casesFor rest clsHasBase mname acc
      | .ok (some impl) =>
          let id := match path with
            | [] => 0
            | n :: _ => n.classId
          casesFor rest clsHasBase mname (addCase acc impl id)

def buildEntries (t : CTree) (ancestors : List CNode) :
    List (String × Bool) → Except String (List VEntry)
  | [] => .ok []
  | (mname, inherited) :: rest =>
      match casesFor (preorderPaths t []) (!ancestors.isEmpty) mname [] with
      | .error e => .error e
      | .ok cases =>
          match (if inherited ∧ ¬ ancestors.isEmpty then
                   findMethodImplFor ancestors false mname
                 else .ok none : Except String (Option String)) with
          | .error e => .error e
          | .ok d =>
              match buildEntries t ancestors rest with
              | .error e => .error e
              | .ok tail => .ok (⟨mname, cases, d⟩ :: tail)

/-- `createVirtualsFor`: the vtable of the class at the top of `t`, whose
strict ancestors (nearest first) are `ancestors`. -/
def createVirtualsFor (ancestors : List CNode) (t : CTree) :
    Except String (List VEntry) :=
  buildEntries t ancestors (virtualNames t.top ancestors)

/-- Scenario 3 of the spec: `A` declares virtual `f`, `B extends A`
overrides it, `C extends B` declares nothing. -/
def treeC : CTree := .node ⟨"C", 196538, []⟩ []

def treeB : CTree := .node ⟨"B", 2041, [⟨MethodKind.Virtual, "f"⟩]⟩ [treeC]

def treeA : CTree := .node ⟨"A", 8, [⟨MethodKind.Virtual, "f"⟩]⟩ [treeB]

/-! ## Lexical collector (`collectDefinitions`)

The line regexes of the source are compiled to character-level matchers.
`Os` is `\s*`, `Ws` is `\s+`, `Id` is `[A-Za-z][A-Za-z0-9]*`, `Comment`
is `\s*(?:\/\/.*)?`.  The inputs are ASCII lines, so `\s` is the ASCII
whitespace set. -/

def isWsChar (c : Char) : Bool :=
  c = ' ' || c = '\t' || c = '\n' || c = '\r' || c = '\x0b' || c = '\x0c'

def dropWs (l : List Char) : List Char := l.dropWhile isWsChar

/-- Match `\s+`: at least one whitespace character, greedily. -/
def reqWs : List Char → Option (List Char)
  | c :: rest => if isWsChar c then some (dropWs rest) else none
  | [] => none

/-- Match a literal string. -/
def litS (s : String) (l : List Char) : Option (List Char) :=
  go s.data l
where go : List Char → List Char → Option (List Char)
  | [], l => some l
  | p :: ps, c :: cs => if c = p then go ps cs else none
  | _ :: _, [] => none

/-- Match `[A-Za-z][A-Za-z0-9]*` greedily (the greedy length is forced:
every regex context following `Id` starts with a non-alphanumeric
character). -/
def identR : List Char → Option (String × List Char)
  | c :: cs =>
      if c.isAlpha then
        some (String.mk (c :: cs.takeWhile (fun d => d.isAlphanum)),
              cs.dropWhile (fun d => d.isAlphanum))
      else none
  | [] => none

def expectCh (c : Char) : List Char → Option (List Char)
  | d :: rest => if d = c then some rest else none
  | [] => none

/-- Match `\s*(?:\/\/.*)?$`. -/
def commentEnd (l : List Char) : Bool :=
  match dropWs l with
  | [] => true
  | '/' :: '/' :: _ => true
  | _ => false

/-- `start_re`: `^\s*@shared\s+(?:struct|class)\s+(?:Id)` (test only). -/
def startTest (l : String) : Bool :=
  (((litS ("@shared") (dropWs l.data)).bind reqWs).bind (fun r =>
    match (litS ("struct") r).bind reqWs with
    | some r' => identR r'
    | none =>
      match (litS ("class") r).bind reqWs with
      | some r' => identR r'
      | none => none)).isSome

/-- `struct_re`: `^\s*@shared\s+struct\s+(Id)\s*\{Comment$`. -/
def structRe (l : String) : Option String :=
  ((((litS ("@shared") (dropWs l.data)).bind reqWs).bind (litS ("struct"))).bind
      reqWs).bind (fun r =>
    (identR r).bind (fun (name, r1) =>
      ((expectCh '\x7b' (dropWs r1)).bind (fun r2 =>
        if commentEnd r2 then some name else none))))

/-- `class_re`: `^\s*@shared\s+class\s+(Id)\s*(?:extends\s+(Id))?\s*\{Comment$`.
If the literal `extends` is present but the rest fails, the optional
group's empty alternative would need `{` at the letter `e`, so failing
outright is faithful. -/
def classRe (l : String) : Option (String × String) :=
  ((((litS ("@shared") (dropWs l.data)).bind reqWs).bind (litS ("class"))).bind
      reqWs).bind (fun r =>
    (identR r).bind (fun (name, r1) =>
      let r2 := dropWs r1
      let finish := fun (base : String) (r3 : List Char) =>
        (expectCh '\x7b' (dropWs r3)).bind (fun r4 =>
          if commentEnd r4 then some (name, base) else none)
      match ((litS ("extends") r2).bind reqWs).bind identR with
      | some (base, r3) => finish base r3
      | none => finish ("") r2))

/-- `end_re`: `^\s*\}\s*@end Comment$`. -/
def endRe (l : String) : Bool :=
  (((expectCh '\x7d' (dropWs l.data)).map dropWs).bind (litS ("@end"))).elim
    false commentEnd

/-- `method_re`: `^\s*@method\s+(Id)\s*(\(\s*self.*)$`; the second result
is the capture group, running from the open parenthesis to the end of the
line. -/
def methodRe (l : String) : Option (String × String) :=
  (((litS ("@method") (dropWs l.data)).bind reqWs).bind identR).bind
    (fun (name, r1) =>
      let r2 := dropWs r1
      match r2 with
      | '(' :: r3 =>
          ((litS ("self") (dropWs r3)).map (fun _ => (name, String.mk r2)))
      | _ => none)

/-- `special_re`: `^\s*@(get|set|copy)\s*(\(\s*self.*)$`. -/
def specialRe (l : String) : Option (MethodKind × String) :=
  (expectCh '@' (dropWs l.data)).bind (fun r0 =>
    let finish := fun (k : MethodKind) (r1 : List Char) =>
      let r2 := dropWs r1
      match r2 with
      | '(' :: r3 =>
          ((litS ("self") (dropWs r3)).map (fun _ => (k, String.mk r2)))
      | _ => none
    match litS ("get") r0 with
    | some r1 => finish MethodKind.Get r1
    | none =>
      match litS ("set") r0 with
      | some r1 => finish MethodKind.Set r1
      | none =>
        match litS ("copy") r0 with
        | some r1 => finish MethodKind.Copy r1
        | none => none)

/-- Common tail `\s*;?Comment$` of the property regexes. -/
def propTail (r : List Char) : Bool :=
  match dropWs r with
  | ';' :: r1 => commentEnd r1
  | r1 => commentEnd r1

/-- `prop_re`: `^\s*(Id)\s*:\s*(?:(atomic|synchronic)\s+)?(Id)\s*;?Comment$`.
When the qualifier alternative matches but the rest of the line does not,
the regex backtracks to the empty alternative, so the qualifier word is
then read as the type name. -/
def propRe (l : String) : Option (String × PropQual × String) :=
  (identR (dropWs l.data)).bind (fun (name, r1) =>
    (expectCh ':' (dropWs r1)).bind (fun r2 =>
      let r3 := dropWs r2
      let finish := fun (q : PropQual) (r : List Char) =>
        (identR r).bind (fun (ty, r4) =>
          if propTail r4 then some (name, q, ty) else none)
      let noQual := finish PropQual.None r3
      match (litS ("atomic") r3).bind reqWs with
      | some r4 => (finish PropQual.Atomic r4).orElse (fun _ => noQual)
      | none =>
        match (litS ("synchronic") r3).bind reqWs with
        | some r4 => (finish PropQual.Synchronic r4).orElse (fun _ => noQual)
        | none => noQual))

/-- `aprop_re`: `^\s*(Id)\s*:\s*array\s*\(\s*(Id)\s*\)\s*;?Comment$`. -/
def apropRe (l : String) : Option (String × String) :=
  (identR (dropWs l.data)).bind (fun (name, r1) =>
    (expectCh ':' (dropWs r1)).bind (fun r2 =>
      ((litS ("array") (dropWs r2)).bind (fun r3 =>
        (expectCh '(' (dropWs r3)).bind (fun r4 =>
          (identR (dropWs r4)).bind (fun (ty, r5) =>
            (expectCh ')' (dropWs r5)).bind (fun r6 =>
              if propTail r6 then some (name, ty) else none)))))))

/-- `blank_re`: `^\s*Comment$` (same as the comment tail). -/
def blankRe (l : String) : Bool := commentEnd l.data

structure PropR where
  line : Nat
  name : String
  qual : PropQual
  isArray : Bool
  typeName : String

structure MethodR where
  line : Nat
  kind : MethodKind
  name : String
  body : List String

inductive DefnR where
  | cls (file : String) (line : Nat) (name : String) (baseName : String)
        (props : List PropR) (methods : List MethodR) (origin : Nat)
  | strct (file : String) (line : Nat) (name : String)
          (props : List PropR) (methods : List MethodR) (origin : Nat)

/-- In-progress definition state of the collector's inner loop. -/
structure InnerSt where
  isClass : Bool
  name : String
  inherit : String
  lineno : Nat
  props : List PropR
  methods : List MethodR
  inMethod : Bool
  mtype : MethodKind
  mname : String
  mbody : List String

/-- Flush the method in progress, as the source does when a new method
opens or the definition ends; `i` is the already-incremented line
counter. -/
def flushMethod (st : InnerSt) (i : Nat) : InnerSt :=
  if st.inMethod then
    { st with methods := st.methods ++ [⟨i, st.mtype, st.mname, st.mbody⟩],
              inMethod := false }
  else st

def mkDefn (file : String) (st : InnerSt) (i : Nat) (origin : Nat) : DefnR :=
  let st := flushMethod st i
  if st.isClass then .cls file st.lineno st.name st.inherit st.props st.methods origin
  else .strct file st.lineno st.name st.props st.methods origin

/-- Main loop of `collectDefinitions`: `i` counts consumed lines, so the
1-based line number of the line being examined is `i + 1`. -/
def collectGo (file : String) :
    List String → Nat → List DefnR → List String → Option InnerSt →
    Except String (List DefnR × List String)
  | [], _, defs, nlines, none => .ok (defs, nlines)
  | [], i, defs, nlines, some st =>
      .ok (defs ++ [mkDefn file st i nlines.length], nlines)
  | l :: rest, i, defs, nlines, none =>
      let i' := i + 1
      if startTest l then
        match structRe l with
        | some name =>
            collectGo file rest i' defs nlines
              (some ⟨false, name, "", i', [], [], false, .Virtual, "", []⟩)
        | none =>
          match classRe l with
          | some (name, inh) =>
              collectGo file rest i' defs nlines
                (some ⟨true, name, inh, i', [], [], false, .Virtual, "", []⟩)
          | none =>
              .error (file ++ ":" ++ toString i' ++
                (": Syntax error: Malformed definition line"))
      else collectGo file rest i' defs (nlines ++ [l]) none
  | l :: rest, i, defs, nlines, some st =>
      let i' := i + 1
      if endRe l then
        collectGo file rest i' (defs ++ [mkDefn file st i' nlines.length]) nlines none
      else
        match methodRe l with
        | some (mn, b0) =>
            let st := flushMethod st i'
            collectGo file rest i' defs nlines
              (some { st with inMethod := true, mtype := .Virtual, mname := mn,
                              mbody := [b0] })
        | none =>
          match specialRe l with
          | some (k, b0) =>
              let st := flushMethod st i'
              collectGo file rest i' defs nlines
                (some { st with inMethod := true, mtype := k, mname := "",
                                mbody := [b0] })
          | none =>
            match propRe l with
            | some (n, q, ty) =>
                collectGo file rest i' defs nlines
                  (some { st with props := st.props ++ [⟨i', n, q, false, ty⟩] })
            | none =>
              match apropRe l with
              | some (n, ty) =>
                  collectGo file rest i' defs nlines
                    (some { st with props := st.props ++ [⟨i', n, .None, true, ty⟩] })
              | none =>
                  if st.inMethod then
                    collectGo file rest i' defs nlines
                      (some { st with mbody := st.mbody ++ [l] })
                  else if blankRe l then
                    collectGo file rest i' defs nlines (some st)
                  else
                    .error (file ++ ":" ++ toString i' ++
                      (": Syntax error: Not a property or method: ") ++ l)

def collectDefinitions (file : String) (lines : List String) :
    Except String (List DefnR × List String) :=
  collectGo file lines 0 [] [] none

/-! ## The `log2` helper

The source reads

```
function log2(x:number):number {
    if (i <= 0)
        throw new Error("log2: " + x);
    var i = 0;
    while (x > 1) {
        i++;
        x >>= 1;
    }
    return i;
}
```

`var i` is hoisted, so the guard compares the still-uninitialized `i`
(`undefined`): `undefined <= 0` is false and the throw can never fire.
The function therefore falls through to the loop for every input. -/

/-- JS ToInt32: reduce mod `2^32` into `[-2^31, 2^31)`. -/
def toInt32 (x : Int) : Int :=
  if x % 4294967296 < 2147483648 then x % 4294967296
  else x % 4294967296 - 4294967296

/-- The `while (x > 1) { i++; x >>= 1; }` loop: the compound assignment
`x >>= 1` first converts `x` with ToInt32 and then shifts arithmetically,
which on an int32 value is floor division by 2 — so for example
`log2(2^31)` wraps to `-2^31 >> 1` after one pass and returns 1.  The
fuel only bounds the iteration count structurally: the first pass lands
in `(-2^30, 2^30)` and each later pass halves, so no integer input ever
drives more than 32 passes. -/
def log2IterI : Nat → Int → Nat
  | 0, _ => 0
  | fuel + 1, x => if 1 < x then log2IterI fuel (Int.fdiv (toInt32 x) 2) + 1 else 0

/-- `log2` of the source on integer inputs.  The dead guard is omitted
(it never fires, see above); for `x ≤ 1` the loop body never runs and
the result is 0. -/
def log2 (x : Int) : Nat := log2IterI 64 x

/-! ## Global macro expander

`expandMacrosIn` composes three pattern rewrites (accessor, array
accessor, allocator).  The source's regexes are compiled to
character-level matchers; positions are character indices.  JS
`re.exec` with `lastIndex` finds the leftmost match starting at or after
the index, so the search tries every position in order. -/

/-- Builtin primitive types (`builtinTypes` of the source). -/
def builtinsE : List (String × TypeD) :=
  [("int8", .prim ("int8") 1), ("uint8", .prim ("uint8") 1),
   ("int16", .prim ("int16") 2), ("uint16", .prim ("uint16") 2),
   ("int32", .prim ("int32") 4), ("uint32", .prim ("uint32") 4),
   ("float32", .prim ("float32") 4), ("float64", .prim ("float64") 8)]

/-- The global `knownTypes` table: the user-defined types only. -/
abbrev Env := List (String × TypeD)

/-- Own-key lookup, the semantics of `obj.hasOwnProperty(n)` followed by
`obj[n]`. -/
def lookupT (l : List (String × TypeD)) (n : String) : Option TypeD :=
  (l.find? (fun p => p.1 = n)).map (fun p => p.2)

/-- `Object.prototype` member names matching the `Id` shape
`[A-Za-z][A-Za-z0-9]*` used for type-name positions: an unguarded read
`obj[n]` of a `{}`-backed table finds these as truthy inherited
functions (`constructor` finds `Object`). -/
def protoKeysId : List String :=
  [("toString"), ("toLocaleString"), ("valueOf"), ("hasOwnProperty"),
   ("isPrototypeOf"), ("propertyIsEnumerable"), ("constructor")]

/-- `Object.prototype` member names matching the word shape
`[a-zA-Z0-9_]+` used for property-name positions: the `Id`-shaped ones
plus the underscore accessors (all reads of them are truthy:
`__proto__` yields `Object.prototype` itself). -/
def protoKeysWord : List String :=
  protoKeysId ++
  [("__proto__"), ("__defineGetter__"), ("__defineSetter__"),
   ("__lookupGetter__"), ("__lookupSetter__")]

/-- Result of an unguarded JS property read `table[name]` on a
`{}`-backed object: an own key yields its value; an `Object.prototype`
member name yields a truthy inherited value that carries none of the
expected fields (`.proto`); anything else is `undefined` (`.miss`). -/
inductive PropRead (α : Type) where
  | own (a : α)
  | proto
  | miss

/-- The truthy read `knownTypes[name]` of `accMacro` and `newMacro` for
an `Id`-shaped name. -/
def jsGet (l : Env) (n : String) : PropRead TypeD :=
  match lookupT l n with
  | some t => .own t
  | none => if protoKeysId.contains n then .proto else .miss

/-- `findType`: builtins first, then `knownTypes`, otherwise a thrown
internal error.  Both tables are probed with `hasOwnProperty`, so the
prototype chain plays no part here. -/
def findTypeE (env : Env) (n : String) : Except String TypeD :=
  match lookupT builtinsE n with
  | some t => .ok t
  | none =>
    match lookupT env n with
    | some t => .ok t
    | none => .error (("Internal: Unknown type in sizeofType: ") ++ n)

/-- `UserDefn.findAccessibleFieldFor`: the operations `get_`, `set_` and
`ref_` perform the unguarded read `this.map[prop]`; anything else gives
null, which callers treat like a missing field.  A word-shaped
`Object.prototype` member name hits the prototype chain: the source then
proceeds with a truthy `fld` whose `offset` and `type` are `undefined`. -/
def findAccessibleFieldFor (t : TypeD) (operation prop : String) : PropRead Entry :=
  if operation = "get_" ∨ operation = "set_" ∨ operation = "ref_" then
    match t.tmap.find? (fun e => e.name = prop) with
    | some e => .own e
    | none => if protoKeysWord.contains prop then .proto else .miss
  else .miss

/-- `cleanupArg`: trim surrounding whitespace; an empty argument becomes
null. -/
def cleanupArg (s : List Char) : Option String :=
  let t := ((s.dropWhile isWsChar).reverse.dropWhile isWsChar).reverse
  if t.isEmpty then none else some (String.mk t)

/-- `ParamParser.nextArg`: scan one argument tracking bracket depth;
returns the (cleaned) argument, the new position, and whether the
closing parenthesis of the whole list was consumed.  Falling off the end
of the input gives no argument (JS `undefined`), which stops `allArgs`
just like an empty argument does. -/
def nextArg : List Char → Nat → Int → List Char →
    Except String (Option String × Nat × Bool)
  | [], pos, _, _ => .ok (none, pos, false)
  | c :: rest, pos, depth, cur =>
    if c = ',' ∧ depth = 0 then .ok (cleanupArg cur.reverse, pos + 1, false)
    else if c = '(' ∨ c = '\x7b' ∨ c = '[' then nextArg rest (pos + 1) (depth + 1) (c :: cur)
    else if c = '\x7d' ∨ c = ']' then nextArg rest (pos + 1) (depth - 1) (c :: cur)
    else if c = ')' then
      if depth = 0 then .ok (cleanupArg cur.reverse, pos + 1, true)
      else nextArg rest (pos + 1) (depth - 1) (c :: cur)
    else if c = '\'' ∨ c = '"' then
      .error ("Internal error: Avoid strings in arguments for now")
    else nextArg rest (pos + 1) depth (c :: cur)

/-- `ParamParser.allArgs` together with the final `where` position. -/
def allArgsGo (full : List Char) : Nat → List String → Nat →
    Except String (List String × Nat)
  | _, _, 0 => .error ("argument fuel exhausted")
  | pos, acc, fuel + 1 =>
    match nextArg (full.drop pos) pos 0 [] with
    | .error e => .error e
    | .ok (none, p, _) => .ok (acc, p)
    | .ok (some a, p, done) =>
        if done then .ok (acc ++ [a], p) else allArgsGo full p (acc ++ [a]) fuel

def parseArgs (s : String) (pos : Nat) : Except String (List String × Nat) :=
  allArgsGo s.data pos [] (s.length + 1)

/-- `endstrip`: keep a bare alphanumeric token, parenthesize anything
else. -/
def endstrip (x : String) : String :=
  if ¬ x.data.isEmpty ∧ x.data.all (fun c => c.isAlphanum) then x
  else ("(") ++ x ++ (")")

/-- Match `([a-zA-Z0-9_]+)\s*\(` (tail of `acc_re`); the greedy
name-run length is forced because a shorter run leaves a word character
where the parenthesis must be. -/
def wordRun (r : List Char) : Option (String × List Char) :=
  let w := r.takeWhile (fun c => c.isAlphanum ∨ c = '_')
  if w.isEmpty then none else some (String.mk w, r.drop w.length)

def wsParen (r : List Char) : Option (List Char) :=
  match dropWs r with
  | '(' :: rest => some rest
  | _ => none

def accTail (r : List Char) : Option (String × List Char) :=
  (wordRun r).bind (fun pr => (wsParen pr.2).map (fun r2 => (pr.1, r2)))

/-- Try `acc_re` = `([A-Za-z][A-Za-z0-9]*)\.(set_|ref_)?([a-zA-Z0-9_]+)\s*\(`
at the head of `l`, returning class name, optional operation, property
name and the rest after the open parenthesis.  The alternation tries
`set_`, then `ref_`, then the empty alternative, falling through exactly
when a branch's continuation fails. -/
def accTryAt (l : List Char) : Option (String × Option String × String × List Char) :=
  match l with
  | [] => none
  | c :: cs =>
    if c.isAlpha then
      let cn := String.mk (c :: cs.takeWhile (fun d => d.isAlphanum))
      match cs.dropWhile (fun d => d.isAlphanum) with
      | '.' :: r2 =>
        let tryOp := fun (op : String) =>
          (litS op r2).bind (fun r3 =>
            (accTail r3).map (fun pr => (cn, some op, pr.1, pr.2)))
        ((tryOp ("set_")).orElse (fun _ => tryOp ("ref_"))).orElse (fun _ =>
          (accTail r2).map (fun pr => (cn, none, pr.1, pr.2)))
      | _ => none
    else none

def accSearch : List Char → Nat → Option (Nat × String × Option String × String × Nat)
  | [], _ => none
  | l@(_ :: rest), abs =>
    match accTryAt l with
    | some (cn, op, pn, r) => some (abs, cn, op, pn, l.length - r.length)
    | none => accSearch rest (abs + 1)

/-- Try `arr_re` =
`([A-Za-z][A-Za-z0-9]*)\.array_(get|set)(?:_([a-zA-Z0-9_]+))?\s*\(` at
the head of `l`. -/
def arrTryAt (l : List Char) : Option (String × String × Option String × List Char) :=
  match l with
  | [] => none
  | c :: cs =>
    if c.isAlpha then
      let cn := String.mk (c :: cs.takeWhile (fun d => d.isAlphanum))
      match cs.dropWhile (fun d => d.isAlphanum) with
      | '.' :: r2 =>
        (litS ("array_") r2).bind (fun r3 =>
          let withOp := fun (op : String) (r4 : List Char) =>
            let suffixed :=
              match r4 with
              | '_' :: r5 =>
                  (wordRun r5).bind (fun pr =>
                    (wsParen pr.2).map (fun r7 => (cn, op, some pr.1, r7)))
              | _ => none
            (suffixed).orElse (fun _ =>
              (wsParen r4).map (fun r7 => (cn, op, none, r7)))
          match litS ("get") r3 with
          | some r4 => withOp ("get") r4
          | none =>
            match litS ("set") r3 with
            | some r4 => withOp ("set") r4
            | none => none)
      | _ => none
    else none

def arrSearch : List Char → Nat → Option (Nat × String × String × Option String × Nat)
  | [], _ => none
  | l@(_ :: rest), abs =>
    match arrTryAt l with
    | some (tn, op, fld, r) => some (abs, tn, op, fld, l.length - r.length)
    | none => arrSearch rest (abs + 1)

/-- Try `new_re` =
`@new\s+(?:array\s*\(\s*([A-Za-z][A-Za-z0-9]*)\s*,|([A-Za-z][A-Za-z0-9]*))`
at the head of `l`.  When the `array(` branch fails, the second
alternative reads a plain identifier (possibly the word `array` itself). -/
def newTryAt (l : List Char) : Option (Option String × Option String × List Char) :=
  (litS ("@new") l).bind (fun r0 =>
    (reqWs r0).bind (fun r1 =>
      let branch1 :=
        (litS ("array") r1).bind (fun r2 =>
          (expectCh '(' (dropWs r2)).bind (fun r4 =>
            (identR (dropWs r4)).bind (fun pr =>
              (expectCh ',' (dropWs pr.2)).map (fun r8 =>
                ((some pr.1 : Option String), (none : Option String), r8)))))
      (branch1).orElse (fun _ =>
        (identR r1).map (fun pr =>
          ((none : Option String), (some pr.1 : Option String), pr.2)))))

def newSearch : List Char → Nat → Option (Nat × Option String × Option String × Nat)
  | [], _ => none
  | l@(_ :: rest), abs =>
    match newTryAt l with
    | some (at_, ct, r) => some (abs, at_, ct, l.length - r.length)
    | none => newSearch rest (abs + 1)


/-- Request type bundling the mutually recursive operations of the
macro expander (`expandMacrosIn`, the three `myExec` loops, `accMacro`,
`arrMacro`, `newMacro` and `loadFromRef`) into one structurally
fuel-recursive engine. -/
inductive Req where
  | expand (text : String)
  | execAcc (text : String) (idx : Nat)
  | execArr (text : String) (idx : Nat)
  | execNew (text : String) (idx : Nat)
  | acc (s : String) (p : Nat) (cn : String) (op : Option String) (pn : String)
        (mlen : Nat)
  | arr (s : String) (p : Nat) (tn : String) (op : String) (fld : Option String)
        (mlen : Nat)
  | alloc (s : String) (p : Nat) (arrayType : Option String)
          (classType : Option String) (mlen : Nat)
  | load (ref : String) (ty : TypeD) (s : String) (left : String)
         (operation : String) (whereP : Nat) (rhs : Option String)
         (noM : String × Nat)

/-- The expander engine.  `expand` composes the accessor pass, the array
pass and the allocator pass; each `exec` loop finds the leftmost match at
or after its index and hands it to its macro, which returns the new text
and the index at which to continue; a macro's `noM` result leaves the
text unchanged and skips past the match.  Exec and expand requests carry
the continuation index in the second result component or `0`.  A missing
argument stands in for JS `undefined`, which stringifies as `undefined`
when concatenated. -/
def engine (env : Env) : Nat → Req → Except String (String × Nat)
  | 0, _ => .error ("macro fuel exhausted")
  | f + 1, .expand text =>
    match engine env f (.execAcc text 0) with
    | .error e => .error e
    | .ok t1 =>
      match engine env f (.execArr t1.1 0) with
      | .error e => .error e
      | .ok t2 => engine env f (.execNew t2.1 0)
  | f + 1, .execAcc text idx =>
    match accSearch (text.data.drop idx) idx with
    | none => .ok (text, 0)
    | some (p, cn, op, pn, mlen) =>
      match engine env f (.acc text p cn op pn mlen) with
      | .error e => .error e
      | .ok (t, idx2) => engine env f (.execAcc t idx2)
  | f + 1, .execArr text idx =>
    match arrSearch (text.data.drop idx) idx with
    | none => .ok (text, 0)
    | some (p, tn, op, fld, mlen) =>
      match engine env f (.arr text p tn op fld mlen) with
      | .error e => .error e
      | .ok (t, idx2) => engine env f (.execArr t idx2)
  | f + 1, .execNew text idx =>
    match newSearch (text.data.drop idx) idx with
    | none => .ok (text, 0)
    | some (p, at_, ct, mlen) =>
      match engine env f (.alloc text p at_ ct mlen) with
      | .error e => .error e
      | .ok (t, idx2) => engine env f (.execNew t idx2)
  | f + 1, .acc s p cn op pn mlen =>
    let noM := (s, p + mlen)
    let left := s.take p
    let operation := op.getD ("get_")
    match jsGet env cn with
    | .miss => .ok noM
    | .proto =>
      -- `knownTypes[cn]` finds an inherited function, `!cls` is false,
      -- and `cls.findAccessibleFieldFor(...)` crashes the translation
      -- (the exact engine wording of the TypeError is fixed here)
      .error ("TypeError: cls.findAccessibleFieldFor is not a function")
    | .own cls =>
      match findAccessibleFieldFor cls operation pn with
      | .miss => .ok noM
      | .own fld =>
        match parseArgs s (p + mlen) with
        | .error e => .error e
        | .ok (as, whereP) =>
          if operation = "get_" ∧ as.length ≠ 1 then .ok noM
          else if operation = "set_" ∧ as.length ≠ 2 then .ok noM
          else
            match engine env f (.expand (endstrip (as.headD ("undefined")))) with
            | .error e => .error e
            | .ok a0 =>
              let ref := ("(") ++ a0.1 ++ ("+") ++ toString fld.offset ++ (")")
              if operation = "ref_" then
                .ok (left ++ ref ++ s.drop whereP, left.length + ref.length)
              else
                engine env f (.load ref fld.type s left operation whereP
                  (as.get? 1) noM)
      | .proto =>
        -- `this.map[prop]` found a truthy Object.prototype member: the
        -- source proceeds with `fld.offset` and `fld.type` undefined, so
        -- `ref` gets the text `undefined` and `loadFromRef` crashes on
        -- `type.kind` for get/set, while `ref_` still emits its text
        match parseArgs s (p + mlen) with
        | .error e => .error e
        | .ok (as, whereP) =>
          if operation = "get_" ∧ as.length ≠ 1 then .ok noM
          else if operation = "set_" ∧ as.length ≠ 2 then .ok noM
          else
            match engine env f (.expand (endstrip (as.headD ("undefined")))) with
            | .error e => .error e
            | .ok a0 =>
              let ref := ("(") ++ a0.1 ++ ("+undefined)")
              if operation = "ref_" then
                .ok (left ++ ref ++ s.drop whereP, left.length + ref.length)
              else .error ("TypeError: Cannot read property kind of undefined")
  | f + 1, .load ref ty s left operation whereP rhs noM =>
    let memsz : String × Nat :=
      match ty with
      | .prim n sz => (("_mem_") ++ n, sz)
      | .user k _ _ _ _ _ _ =>
          if k = DefnKind.Class then (("_mem_int32"), 4) else ((""), 0)
    if 0 < memsz.2 then
      if operation = "get_" then
        let expr := ("(") ++ memsz.1 ++ ("[") ++ ref ++ (">>") ++
          toString (log2 (memsz.2 : Int)) ++ ("])")
        .ok (left ++ expr ++ s.drop whereP, left.length + expr.length)
      else if operation = "set_" then
        match engine env f (.expand (endstrip (rhs.getD ("undefined")))) with
        | .error e => .error e
        | .ok rx =>
          let expr := ("(") ++ memsz.1 ++ ("[") ++ ref ++ (">>") ++
            toString (log2 (memsz.2 : Int)) ++ ("] = ") ++ rx.1 ++ (")")
          .ok (left ++ expr ++ s.drop whereP, left.length + expr.length)
      else .ok noM
    else
      if operation = "get_" then
        if ¬ ty.hasGetM then .ok noM
        else
          let expr := ("(") ++ ty.tname ++ ("._get_impl(") ++ ref ++ ("))")
          .ok (left ++ expr ++ s.drop whereP, left.length + expr.length)
      else if operation = "set_" then
        if ¬ ty.hasSetM then .ok noM
        else
          match engine env f (.expand (endstrip (rhs.getD ("undefined")))) with
          | .error e => .error e
          | .ok rx =>
            let expr := ("(") ++ ty.tname ++ ("._set_impl(") ++ ref ++ (",") ++
              rx.1 ++ ("))")
            .ok (left ++ expr ++ s.drop whereP, left.length + expr.length)
      else .ok noM
  | f + 1, .arr s p tn op fld mlen =>
    let noM := (s, p + mlen)
    match findTypeE env tn with
    | .error e => .error e
    | .ok ty =>
      match parseArgs s (p + mlen) with
      | .error e => .error e
      | .ok (as, whereP) =>
        if op = "get" ∧ as.length ≠ 2 then .ok noM
        else if op = "set" ∧ as.length ≠ 3 then .ok noM
        else
          let operation := if op = "get" then ("get_") else ("set_")
          if ty.kind = DefnKind.Primitive ∧ fld.isSome then .ok noM
          else if ty.kind = DefnKind.Class ∧ fld.isSome then .ok noM
          else
            match engine env f (.expand (endstrip (as.headD ("undefined")))) with
            | .error e => .error e
            | .ok a0 =>
              match engine env f
                  (.expand (endstrip ((as.get? 1).getD ("undefined")))) with
              | .error e => .error e
              | .ok a1 =>
                let ref := ("(") ++ a0.1 ++ ("+") ++ toString ty.size ++ ("*") ++
                  a1.1 ++ (")")
                match fld with
                | some fname =>
                  match findAccessibleFieldFor ty operation fname with
                  | .miss => .ok noM
                  | .proto =>
                    -- truthy prototype hit: `type = fld.type` is
                    -- undefined and `loadFromRef` crashes on `type.kind`
                    .error ("TypeError: Cannot read property kind of undefined")
                  | .own fe =>
                    engine env f (.load
                      (("(") ++ ref ++ ("+") ++ toString fe.offset ++ (")"))
                      fe.type s (s.take p) operation whereP (as.get? 2) noM)
                | none =>
                    engine env f (.load ref ty s (s.take p) operation whereP
                      (as.get? 2) noM)
  | f + 1, .alloc s p arrayType classType mlen =>
    let left := s.take p
    match classType with
    | some ct =>
      match jsGet env ct with
      | .miss => .error (("Unknown type argument to @new: ") ++ ct)
      | .proto =>
        -- `knownTypes[ct]` finds a truthy inherited function, so the
        -- unknown-type throw is skipped and `t.size`/`t.align` are
        -- undefined: garbage is emitted with no error
        let expr := ("(") ++ ct ++ (".initInstance(Parlang.alloc(undefined,undefined)))")
        .ok (left ++ expr ++ s.drop (p + mlen), left.length + expr.length)
      | .own t =>
        let expr := ("(") ++ ct ++ (".initInstance(Parlang.alloc(") ++
          toString t.size ++ (",") ++ toString t.align ++ (")))")
        .ok (left ++ expr ++ s.drop (p + mlen), left.length + expr.length)
    | none =>
      let at_ := arrayType.getD ("")
      match parseArgs s (p + mlen) with
      | .error e => .error e
      | .ok (as, whereP) =>
        if as.length ≠ 1 then
          .error (("Wrong number of arguments to @new array(") ++ at_ ++ (")"))
        else
          match findTypeE env at_ with
          | .error e => .error e
          | .ok t =>
            match engine env f (.expand (endstrip (as.headD ("undefined")))) with
            | .error e => .error e
            | .ok a0 =>
              let expr := ("(Parlang.alloc(") ++ toString t.size ++ (" * ") ++
                a0.1 ++ (", ") ++ toString t.align ++ ("))")
              .ok (left ++ expr ++ s.drop whereP, left.length + expr.length)

/-- `expandMacrosIn` with explicit fuel. -/
def expandMacrosIn (env : Env) (fuel : Nat) (text : String) : Except String String :=
  (engine env fuel (.expand text)).map (fun r => r.1)

/-- `accMacro` (engine entry point). -/
def accMac (env : Env) (fuel : Nat) (s : String) (p : Nat) (cn : String)
    (op : Option String) (pn : String) (mlen : Nat) : Except String (String × Nat) :=
  engine env fuel (.acc s p cn op pn mlen)

/-- `arrMacro` (engine entry point). -/
def arrMac (env : Env) (fuel : Nat) (s : String) (p : Nat) (tn : String)
    (op : String) (fld : Option String) (mlen : Nat) : Except String (String × Nat) :=
  engine env fuel (.arr s p tn op fld mlen)

/-- `newMacro` (engine entry point). -/
def newMac (env : Env) (fuel : Nat) (s : String) (p : Nat)
    (arrayType classType : Option String) (mlen : Nat) : Except String (String × Nat) :=
  engine env fuel (.alloc s p arrayType classType mlen)

/-- Expansion of one line with ample fuel (`expandGlobalAccessorsAndMacros`
applies `expandMacrosIn` to every pasted-up line). -/
def expandLine (env : Env) (s : String) : Except String String :=
  expandMacrosIn env 99 s

/-- Descriptor environment after translating class `Point`. -/
def pointEnv : Env :=
  [("Point", .user .Class ("Point") pointL.size pointL.align false false pointL.map)]

/-- Class `Q { initInstance:int32 }`: a legal class whose field name
collides with the emitted `initInstance` helper. -/
def qL : Layout := layoutClassC (.root [⟨"initInstance", false, int32T⟩])

def qEnv : Env :=
  [("Q", .user .Class ("Q") qL.size qL.align false false qL.map)]

/-! ## Theorems -/

set_option maxRecDepth 40000

theorem alignUp_ge (x s : Nat) (hs : 1 ≤ s) : x ≤ alignUp x s := by
  unfold alignUp
  have hlt : (x + s - 1) % s < s := Nat.mod_lt _ (by omega)
  omega

theorem insertEntry_mem {m : List Entry} {e e' : Entry}
    (h : e' ∈ insertEntry m e) : e' = e ∨ e' ∈ m := by
  induction m with
  | nil => simpa [insertEntry] using h
  | cons f rest ih =>
      unfold insertEntry at h
      by_cases hf : f.name = e.name
      · simp [hf] at h
        rcases h with h | h
        · exact Or.inl h
        · exact Or.inr (List.mem_cons_of_mem _ h)
      · simp [hf] at h
        rcases h with h | h
        · exact Or.inr (by simp [h])
        · rcases ih h with h' | h'
          · exact Or.inl h'
          · exact Or.inr (List.mem_cons_of_mem _ h')

/-- Offsets stay at or above 4 through the composite-entry fold of the
struct branch. -/
theorem foldEntries_offsets {base : Nat} {root : String} (l : List Entry)
    (m : List Entry) (hb : 4 ≤ base)
    (hm : ∀ e ∈ m, 4 ≤ e.offset) :
    ∀ e ∈ l.foldl
        (fun m f => insertEntry m ⟨root ++ "_" ++ f.name, f.expand, base + f.offset, f.type⟩) m,
      4 ≤ e.offset := by
  induction l generalizing m with
  | nil => exact hm
  | cons f rest ih =>
      intro e he
      refine ih _ ?_ e he
      intro e' he'
      rcases insertEntry_mem he' with h | h
      · subst h; first | omega | (simp <;> omega)
      · exact hm e' h

/-- Invariant of one `layoutDefn` iteration: size and alignment do not
decrease, and all entries keep offsets at or above 4, provided the
property is well-formed and the incoming state is at size ≥ 4. -/
theorem layoutOne_inv {st : Layout} {p : PropL} (hw : propWFb p = true)
    (hs : 4 ≤ st.size) (ha : 4 ≤ st.align)
    (hm : ∀ e ∈ st.map, 4 ≤ e.offset) :
    4 ≤ (layoutOne st p).size ∧ 4 ≤ (layoutOne st p).align ∧
      ∀ e ∈ (layoutOne st p).map, 4 ≤ e.offset := by
  obtain ⟨pname, parr, pty⟩ := p
  unfold propWFb at hw
  cases parr with
  | true =>
      simp only [layoutOne, if_pos rfl]
      have h4 : st.size ≤ alignUp st.size 4 := alignUp_ge _ _ (by omega)
      refine ⟨by first | omega | (simp <;> omega), by first | omega | (simp <;> omega), ?_⟩
      intro e he
      rcases insertEntry_mem he with h | h
      · subst h; first | omega | (simp <;> omega)
      · exact hm e h
  | false =>
      simp only [Bool.false_eq_true] at hw
      simp only [layoutOne, Bool.false_eq_true, if_false]
      cases pty with
      | prim n s =>
          simp only [Bool.false_or] at hw
          have hs1 : 1 ≤ s := by simpa using hw
          simp only [TypeD.kind, TypeD.size, TypeD.align]
          have h4 : st.size ≤ alignUp st.size s := alignUp_ge _ _ hs1
          refine ⟨by first | omega | (simp <;> omega), by first | omega | (simp <;> omega), ?_⟩
          intro e he
          rcases insertEntry_mem he with h | h
          · subst h; first | omega | (simp <;> omega)
          · exact hm e h
      | user k n sz al g s' mp =>
          simp only [Bool.false_or] at hw
          cases k with
          | Class =>
              simp only [TypeD.kind]
              have h4 : st.size ≤ alignUp st.size 4 := alignUp_ge _ _ (by omega)
              refine ⟨by first | omega | (simp <;> omega), by first | omega | (simp <;> omega), ?_⟩
              intro e he
              rcases insertEntry_mem he with h | h
              · subst h; first | omega | (simp <;> omega)
              · exact hm e h
          | Struct =>
              have hal : 1 ≤ al := by simpa using hw
              simp only [TypeD.kind, TypeD.size, TypeD.align, TypeD.tmap]
              have h4 : st.size ≤ alignUp st.size al := alignUp_ge _ _ hal
              refine ⟨by first | omega | (simp <;> omega), by first | omega | (simp <;> omega), ?_⟩
              refine foldEntries_offsets _ _ (by omega) ?_
              intro e he
              rcases insertEntry_mem he with h | h
              · subst h; first | omega | (simp <;> omega)
              · exact hm e h
          | Primitive =>
              have hsz : 1 ≤ sz := by simpa using hw
              simp only [TypeD.kind, TypeD.size, TypeD.align]
              have h4 : st.size ≤ alignUp st.size sz := alignUp_ge _ _ hsz
              refine ⟨by first | omega | (simp <;> omega), by first | omega | (simp <;> omega), ?_⟩
              intro e he
              rcases insertEntry_mem he with h | h
              · subst h; first | omega | (simp <;> omega)
              · exact hm e h

theorem layoutDefn_inv (props : List PropL) (st : Layout)
    (hw : props.all propWFb = true)
    (hs : 4 ≤ st.size) (ha : 4 ≤ st.align)
    (hm : ∀ e ∈ st.map, 4 ≤ e.offset) :
    4 ≤ (props.foldl layoutOne st).size ∧ 4 ≤ (props.foldl layoutOne st).align ∧
      ∀ e ∈ (props.foldl layoutOne st).map, 4 ≤ e.offset := by
  induction props generalizing st with
  | nil => exact ⟨hs, ha, hm⟩
  | cons p rest ih =>
      simp only [List.all_cons, Bool.and_eq_true] at hw
      have h1 := layoutOne_inv hw.1 hs ha hm
      exact ih _ hw.2 h1.1 h1.2.1 h1.2.2

theorem layoutClassC_inv (c : Chain) (h : chainWFb c = true) :
    4 ≤ (layoutClassC c).size ∧ 4 ≤ (layoutClassC c).align ∧
      ∀ e ∈ (layoutClassC c).map, 4 ≤ e.offset := by
  induction c with
  | root ps =>
      unfold chainWFb chainProps at h
      exact layoutDefn_inv ps ⟨[], 4, 4⟩ h (le_refl 4) (le_refl 4) (by simp)
  | child b ps ih =>
      unfold chainWFb chainProps at h
      simp only [List.all_append, Bool.and_eq_true] at h
      have hb := ih (by unfold chainWFb; exact h.1)
      exact layoutDefn_inv ps (layoutClassC b) h.2 hb.1 hb.2.1 hb.2.2

/-- C1.  The claim as stated is false: a class may embed a struct with no
fields, which the source lays out with alignment 0, and the JS align-up
`(size + 0 - 1) & ~(0 - 1)` then collapses the running size to 0, so
later fields land below offset 4 (here `b` at offset 0) and the class
size can fall below 4.  This closed theorem exhibits the failure on
class `X { e:E; b:int32 }` with `E` the empty struct. -/
theorem C1_counterexample :
    emptyStructL.size = 0 ∧ emptyStructL.align = 0 ∧
    clsXL.map = [⟨"e", false, 0, emptyStructT⟩, ⟨"b", true, 0, int32T⟩] ∧
    (clsXL.map.all (fun e => decide (4 ≤ e.offset))) = false ∧
    (layoutClassC (.root [⟨"e", false, emptyStructT⟩])).size = 0 :=
  ⟨rfl, rfl, rfl, rfl, rfl⟩

/-- C1 (amended).  For every class all of whose chain's properties are
well-formed (primitive fields of size ≥ 1 and embedded structs of
alignment ≥ 1 — true of every struct that transitively contains a
primitive, class-pointer or array field), the
layout starts from (or inherits) size ≥ 4 and alignment ≥ 4, so the
final size and alignment are ≥ 4 and every field offset is ≥ 4; and
the base class `Point { x:int32; y:int32 }` gets SIZE = 12, ALIGN = 4,
offset(x) = 4, offset(y) = 8. -/
theorem C1_layout :
    (∀ c : Chain, chainWFb c = true →
      4 ≤ (layoutClassC c).size ∧ 4 ≤ (layoutClassC c).align ∧
        ∀ e ∈ (layoutClassC c).map, 4 ≤ e.offset) ∧
    pointL = ⟨[⟨"x", true, 4, int32T⟩, ⟨"y", true, 8, int32T⟩], 12, 4⟩ :=
  ⟨layoutClassC_inv, rfl⟩

/-- Witness for C1: the hypotheses of the amended claim hold for the
concrete `Point` chain. -/
theorem C1_layout_witness :
    4 ≤ (layoutClassC (.root pointProps)).size ∧
      4 ≤ (layoutClassC (.root pointProps)).align ∧
      ∀ e ∈ (layoutClassC (.root pointProps)).map, 4 ≤ e.offset :=
  C1_layout.1 (.root pointProps) (by decide)

/-- C2.  Struct `Pair { x:float64; y:int32 }` is laid out with SIZE = 16
and ALIGN = 8 (size rounded up to a multiple of the alignment), and class
`PairBox { pad1:float32; pad2:float64; p:Pair; pad3:int32 }` places
`pad1` at 4, `pad2` at 8, `p` at 16 (non-expand) and `pad3` at 32, with
composite entries `p_x` at 16 and `p_y` at 24 inheriting the expand flag
and type of `Pair`'s leaf entries. -/
theorem C2_pairLayout :
    pairL = ⟨[⟨"x", true, 0, float64T⟩, ⟨"y", true, 8, int32T⟩], 16, 8⟩ ∧
    pairBoxL = ⟨[⟨"pad1", true, 4, float32T⟩, ⟨"pad2", true, 8, float64T⟩,
                 ⟨"p", false, 16, pairT⟩, ⟨"p_x", true, 16, float64T⟩,
                 ⟨"p_y", true, 24, int32T⟩, ⟨"pad3", true, 32, int32T⟩], 36, 8⟩ :=
  ⟨rfl, rfl⟩


theorem charVal_valid (c : Char) (h : validCharb c = true) :
    charVal c = .ok (specCode c) := by
  unfold charVal specCode
  unfold validCharb at h
  split_ifs with h1 h2 h3 h4 h5 <;> first | rfl | (exfalso; simp_all)

theorem classIdStep_eq_specStep (n v : Nat) : classIdStep n v = specStep n v := by
  unfold classIdStep specStep
  have h1 : (33554431 : Nat) = 2 ^ 25 - 1 := by norm_num
  have h2 : (33554432 : Nat) = 2 ^ 25 := by norm_num
  rw [h1, Nat.and_pow_two_sub_one_eq_mod, Nat.shiftLeft_eq,
      Nat.shiftRight_eq_div_pow, h2]

theorem computeAux_spec (cs : List Char) (n : Nat)
    (h : cs.all validCharb = true) :
    computeClassIdAux cs n =
      .ok (cs.foldl (fun id c => specStep id (specCode c)) n) := by
  induction cs generalizing n with
  | nil => rfl
  | cons c rest ih =>
      simp only [List.all_cons, Bool.and_eq_true] at h
      unfold computeClassIdAux
      rw [charVal_valid c h.1]
      simp only [List.foldl_cons]
      rw [classIdStep_eq_specStep]
      exact ih _ h.2

theorem charVal_lt (c : Char) (v : Nat) (h : charVal c = .ok v) : v < 64 := by
  unfold charVal at h
  have ca : ('A').toNat = 65 := rfl
  have cb : ('a').toNat = 97 := rfl
  have cz : ('0').toNat = 48 := rfl
  split_ifs at h with h1 h2 h3 h4 h5
  · injection h with h
    have hz : c.toNat ≤ 90 := h1.2
    omega
  · injection h with h
    have hz : c.toNat ≤ 122 := h2.2
    omega
  · injection h with h
    have hz : c.toNat ≤ 57 := h3.2
    omega
  · injection h with h
    omega
  · injection h with h
    omega

theorem classIdStep_lt (n v : Nat) (hv : v < 2 ^ 28) :
    classIdStep n v < 2 ^ 28 := by
  unfold classIdStep
  refine Nat.xor_lt_two_pow (Nat.or_lt_two_pow ?_ ?_) hv
  · have : n % 33554432 < 33554432 := Nat.mod_lt _ (by omega)
    show _ < 268435456
    omega
  · have : n % 4294967296 < 4294967296 := Nat.mod_lt _ (by omega)
    show _ < 268435456
    omega

theorem computeAux_lt (cs : List Char) (n r : Nat)
    (hn : n < 2 ^ 28 ∨ cs ≠ [])
    (h : computeClassIdAux cs n = .ok r) : r < 2 ^ 28 := by
  induction cs generalizing n with
  | nil =>
      injection h with h
      subst h
      rcases hn with hn | hn
      · exact hn
      · exact absurd rfl hn
  | cons c rest ih =>
      unfold computeClassIdAux at h
      cases hc : charVal c with
      | error e => rw [hc] at h; exact absurd h (by simp)
      | ok v =>
          rw [hc] at h
          refine ih _ (Or.inl ?_) h
          exact classIdStep_lt n v (lt_trans (charVal_lt c v hc) (by norm_num))

theorem registerIds_nodup (ns : List String) (acc : List Nat) (hacc : acc.Nodup) :
    ∀ ids, registerIds ns acc = .ok ids → ids.Nodup := by
  induction ns generalizing acc with
  | nil =>
      intro ids h
      injection h with h
      subst h
      exact hacc
  | cons n rest ih =>
      intro ids h
      unfold registerIds at h
      split at h
      · exact absurd h (by simp)
      · rename_i id hc
        split at h
        · exact absurd h (by simp)
        · rename_i hmem
          refine ih (acc ++ [id]) ?_ ids h
          have hid : id ∉ acc := by simpa using hmem
          simp [List.nodup_append, hacc, hid]

/-- C5.  The class-identifier function computes exactly the spec's
rotate-and-xor recurrence on every name over the alphabet
`A-Z a-z 0-9 _ >`; every identifier it returns is below `2^28`; and the
registration pass fails on a duplicate identifier, so a successful
registration yields pairwise distinct identifiers. -/
theorem C5_classId :
    (∀ s : String, s.data.all validCharb = true →
        computeClassId s = .ok (specClassId s)) ∧
    (∀ (s : String) (n : Nat), computeClassId s = .ok n → n < 2 ^ 28) ∧
    (∀ (names : List String) (ids : List Nat),
        registerIds names [] = .ok ids → ids.Nodup) := by
  refine ⟨?_, ?_, ?_⟩
  · intro s hs
    exact computeAux_spec s.data s.data.length hs
  · intro s n h
    unfold computeClassId at h
    cases hd : s.data with
    | nil =>
        rw [hd] at h
        injection h with h
        subst h
        simp
    | cons c rest =>
        rw [hd] at h
        exact computeAux_lt _ _ _ (Or.inr (by simp)) h
  · intro names ids h
    exact registerIds_nodup names [] List.nodup_nil ids h

/-- Witness for C5 at concrete inputs. -/
theorem C5_classId_witness :
    computeClassId ("A>B") = .ok (specClassId ("A>B")) ∧
    (2041 : Nat) < 2 ^ 28 ∧
    ([8, 2041, 196538] : List Nat).Nodup :=
  ⟨C5_classId.1 ("A>B") (by decide),
   C5_classId.2.1 ("A>B") 2041 rfl,
   C5_classId.2.2 ["A", "A>B", "A>B>C"] [8, 2041, 196538] rfl⟩


theorem vnamesMeths_no_init (ms : List MethodM) (inh : Bool) (seen : List String) :
    ∀ x ∈ (vnamesMeths ms inh seen).1, x.1 ≠ "init" := by
  induction ms generalizing seen with
  | nil => intro x hx; simp [vnamesMeths] at hx
  | cons m rest ih =>
      intro x hx
      unfold vnamesMeths at hx
      by_cases hc : m.kind = MethodKind.Virtual ∧ m.name ≠ "init" ∧
          ¬ seen.contains m.name
      · rw [if_pos hc] at hx
        simp only [List.mem_cons] at hx
        rcases hx with hx | hx
        · subst hx; exact hc.2.1
        · exact ih (m.name :: seen) x hx
      · rw [if_neg hc] at hx
        exact ih seen x hx

theorem vnamesGroups_no_init (gs : List (List MethodM × Bool)) (seen : List String) :
    ∀ x ∈ vnamesGroups gs seen, x.1 ≠ "init" := by
  induction gs generalizing seen with
  | nil => intro x hx; simp [vnamesGroups] at hx
  | cons g rest ih =>
      intro x hx
      unfold vnamesGroups at hx
      simp only [List.mem_append] at hx
      rcases hx with hx | hx
      · exact vnamesMeths_no_init g.1 g.2 seen x hx
      · exact ih _ x hx

theorem buildEntries_no_init (t : CTree) (anc : List CNode)
    (names : List (String × Bool)) (hn : ∀ x ∈ names, x.1 ≠ "init") :
    ∀ vt, buildEntries t anc names = .ok vt → ∀ e ∈ vt, e.name ≠ "init" := by
  induction names with
  | nil =>
      intro vt h e he
      injection h with h
      subst h
      simp at he
  | cons x rest ih =>
      intro vt h e he
      unfold buildEntries at h
      repeat' split at h
      all_goals try exact Except.noConfusion h
      injection h with h
      subst h
      simp only [List.mem_cons] at he
      rcases he with he | he
      · subst he
        exact hn x (by simp)
      · exact ih (fun y hy => hn y (by simp [hy])) _ (by assumption) e he

/-- C6.  For `A { virtual f }`, `B extends A { virtual f }`,
`C extends B`, the vtable built for `A` has a single entry for `f`
dispatching CLSID(A) to `A.f_impl` and CLSID(B), CLSID(C) to `B.f_impl`
with no inherited default; the class ids are the hash values of the
dotted names `A`, `A>B`, `A>B>C`; and no vtable ever contains an entry
named `init`. -/
theorem C6_vtable :
    createVirtualsFor [] treeA =
      .ok [⟨"f", [("A.f_impl", [8]), ("B.f_impl", [2041, 196538])], none⟩] ∧
    computeClassId ("A") = .ok 8 ∧
    computeClassId ("A>B") = .ok 2041 ∧
    computeClassId ("A>B>C") = .ok 196538 ∧
    (∀ (anc : List CNode) (t : CTree) (vt : List VEntry),
        createVirtualsFor anc t = .ok vt → ∀ e ∈ vt, e.name ≠ "init") := by
  refine ⟨rfl, rfl, rfl, rfl, ?_⟩
  intro anc t vt h e he
  unfold createVirtualsFor at h
  exact buildEntries_no_init t anc _
    (vnamesGroups_no_init _ []) vt h e he

/-- Witness for C6: the general no-`init` clause applied to the concrete
vtable of `A`. -/
theorem C6_vtable_witness :
    ∀ e ∈ [(⟨"f", [("A.f_impl", [8]), ("B.f_impl", [2041, 196538])], none⟩ : VEntry)],
      e.name ≠ "init" :=
  C6_vtable.2.2.2.2 [] treeA _ rfl

theorem toInt32_of_nonneg_lt (x : Int) (h0 : 0 ≤ x) (h1 : x < 2147483648) :
    toInt32 x = x := by
  unfold toInt32
  have hm : x % 4294967296 = x := by omega
  rw [hm, if_pos h1]

theorem log2IterI_bounds (fuel : Nat) :
    ∀ n : Nat, 1 ≤ n → n < 2147483648 → n < 2 ^ fuel →
      2 ^ log2IterI fuel (n : Int) ≤ n ∧
        n < 2 ^ (log2IterI fuel (n : Int) + 1) := by
  induction fuel with
  | zero => intro n h1 h2 h3; simp at h3; omega
  | succ f ih =>
      intro n h1 h2 h3
      unfold log2IterI
      by_cases hx : (1 : Int) < (n : Int)
      · rw [if_pos hx]
        have hn1 : 1 < n := by exact_mod_cast hx
        have ht : toInt32 (n : Int) = (n : Int) :=
          toInt32_of_nonneg_lt _ (by omega) (by exact_mod_cast h2)
        rw [ht, show (2 : Int) = ((2 : Nat) : Int) from rfl,
            ← Int.ofNat_fdiv]
        have hrec := ih (n / 2) (by omega) (by omega)
          (by rw [pow_succ] at h3; omega)
        rw [pow_succ, pow_succ] at *
        omega
      · rw [if_neg hx]
        have hn1 : ¬ 1 < n := fun h => hx (by exact_mod_cast h)
        simp
        omega

/-- C9.  The claim says `log2` throws for inputs `x ≤ 0`; the code's
guard compares the hoisted, uninitialized `i` (JS `undefined`), which is
never `≤ 0`, so the function never throws: it returns 0 on every
nonpositive input.  On `1 ≤ x < 2^31` it returns the floor of the
base-2 logarithm as the claim's second half says, but from `2^31` on the
ToInt32 wrap of `x >>= 1` breaks that too (`log2(2^31) = 1`). -/
theorem C9_log2 :
    log2 0 = 0 ∧ log2 (-7) = 0 ∧ log2 1 = 0 ∧ log2 4 = 2 ∧ log2 8 = 3 ∧
    log2 2147483648 = 1 ∧
    (∀ x : Int, 1 ≤ x → x < 2147483648 →
      2 ^ log2 x ≤ x.toNat ∧ x.toNat < 2 ^ (log2 x + 1)) := by
  refine ⟨rfl, rfl, rfl, rfl, rfl, rfl, ?_⟩
  intro x h1 h2
  obtain ⟨n, rfl⟩ : ∃ n : Nat, x = (n : Int) := ⟨x.toNat, by omega⟩
  simp only [Int.toNat_natCast]
  exact log2IterI_bounds 64 n (by omega) (by omega)
    (lt_trans (by omega : n < 2147483648) (by norm_num : (2147483648 : Nat) < 2 ^ 64))

/-- Witness for C9 at `x = 8`. -/
theorem C9_log2_witness :
    2 ^ log2 8 ≤ (8 : Int).toNat ∧ (8 : Int).toNat < 2 ^ (log2 8 + 1) :=
  C9_log2.2.2.2.2.2.2 8 (by omega) (by omega)

/-- C3.  The claim's middle and last rewrites are false on the code: the
accessor regex has no `.set(`/`.ref(` suffix forms, so on
`Point.x.set(p, 10)` the only match is `x.set(` whose "class" `x` is
unknown and the text is left unchanged (and likewise `Point.x.ref(p)`);
the claimed outputs are therefore not produced. -/
theorem C3_counterexample :
    expandLine pointEnv ("Point.x.set(p, 10)") = .ok ("Point.x.set(p, 10)") ∧
    expandLine pointEnv ("Point.x.ref(p)") = .ok ("Point.x.ref(p)") ∧
    (("Point.x.set(p, 10)" : String) ≠ ("(_mem_int32[(p+4)>>2] = 10)" : String)) ∧
    (("Point.x.ref(p)" : String) ≠ ("(p+4)" : String)) :=
  ⟨rfl, rfl, by decide, by decide⟩

/-- C3 (amended).  With class `Point` whose field `x` is an `int32` at
offset 4, the expander rewrites `Point.x(p)` to `(_mem_int32[(p+4)>>2])`,
`Point.set_x(p, 10)` to `(_mem_int32[(p+4)>>2] = 10)` and
`Point.ref_x(p)` to `(p+4)`; the dotted forms `Point.x.set(p, 10)` and
`Point.x.ref(p)` of the claim are left unchanged. -/
theorem C3_accessors :
    expandLine pointEnv ("Point.x(p)") = .ok ("(_mem_int32[(p+4)>>2])") ∧
    expandLine pointEnv ("Point.set_x(p, 10)") = .ok ("(_mem_int32[(p+4)>>2] = 10)") ∧
    expandLine pointEnv ("Point.ref_x(p)") = .ok ("(p+4)") ∧
    expandLine pointEnv ("Point.x.set(p, 10)") = .ok ("Point.x.set(p, 10)") ∧
    expandLine pointEnv ("Point.x.ref(p)") = .ok ("Point.x.ref(p)") :=
  ⟨rfl, rfl, rfl, rfl, rfl⟩

theorem newMac_unknownType (env : Env) (f : Nat) (s : String) (p : Nat)
    (at_ : Option String) (ct : String) (mlen : Nat)
    (h : lookupT env ct = none) (hp : protoKeysId.contains ct = false) :
    newMac env (f + 1) s p at_ (some ct) mlen =
      .error (("Unknown type argument to @new: ") ++ ct) := by
  have hp2 : ct ∉ protoKeysId := by simpa using hp
  simp [newMac, engine, jsGet, h, hp2]

theorem newMac_protoType (env : Env) (f : Nat) (s : String) (p : Nat)
    (at_ : Option String) (ct : String) (mlen : Nat)
    (h : lookupT env ct = none) (hp : protoKeysId.contains ct = true) :
    newMac env (f + 1) s p at_ (some ct) mlen =
      .ok (s.take p ++ (("(") ++ ct ++ (".initInstance(Parlang.alloc(undefined,undefined)))")) ++
             s.drop (p + mlen),
           (s.take p).length +
             (("(") ++ ct ++ (".initInstance(Parlang.alloc(undefined,undefined)))")).length) := by
  have hp2 : ct ∈ protoKeysId := by simpa using hp
  simp [newMac, engine, jsGet, h, hp2]

/-- C4.  The claim's surface forms are false on the code: the allocator
marker is `@new`, not `new`, and the array form is `@new array(T, n)`,
not `new T.Array(n)`; both claimed inputs are left unchanged by the
expander. -/
theorem C4_counterexample :
    expandLine pointEnv ("new Point") = .ok ("new Point") ∧
    expandLine pointEnv ("new int32.Array(7)") = .ok ("new int32.Array(7)") ∧
    (("new Point" : String) ≠ ("(Point.initInstance(Parlang.alloc(12,4)))" : String)) :=
  ⟨rfl, rfl, by decide⟩

/-- C4 (amended).  For class `Point` with SIZE 12 and ALIGN 4, the
allocator macro rewrites `@new Point` to
`(Point.initInstance(Parlang.alloc(12,4)))` and the primitive array
allocation `@new array(int32, 7)` to `(Parlang.alloc(4 * 7, 4))`.  An
unknown type name after the `@new` marker is a hard error — unless it is
one of the seven `Object.prototype` method names (`toString`,
`toLocaleString`, `valueOf`, `hasOwnProperty`, `isPrototypeOf`,
`propertyIsEnumerable`, `constructor`): the truthy `knownTypes[T]` read
then skips the throw and the class form emits
`(T.initInstance(Parlang.alloc(undefined,undefined)))` with no error.
Shown concretely for `@new Quux` and `@new toString` and generally for
both cases of the class form. -/
theorem C4_alloc :
    expandLine pointEnv ("@new Point") =
      .ok ("(Point.initInstance(Parlang.alloc(12,4)))") ∧
    expandLine pointEnv ("@new array(int32, 7)") =
      .ok ("(Parlang.alloc(4 * 7, 4))") ∧
    expandLine pointEnv ("@new Quux") =
      .error ("Unknown type argument to @new: Quux") ∧
    expandLine pointEnv ("@new toString") =
      .ok ("(toString.initInstance(Parlang.alloc(undefined,undefined)))") ∧
    (∀ (env : Env) (f : Nat) (s : String) (p : Nat) (at_ : Option String)
        (ct : String) (mlen : Nat),
      lookupT env ct = none → protoKeysId.contains ct = false →
      newMac env (f + 1) s p at_ (some ct) mlen =
        .error (("Unknown type argument to @new: ") ++ ct)) ∧
    (∀ (env : Env) (f : Nat) (s : String) (p : Nat) (at_ : Option String)
        (ct : String) (mlen : Nat),
      lookupT env ct = none → protoKeysId.contains ct = true →
      newMac env (f + 1) s p at_ (some ct) mlen =
        .ok (s.take p ++ (("(") ++ ct ++ (".initInstance(Parlang.alloc(undefined,undefined)))")) ++
               s.drop (p + mlen),
             (s.take p).length +
               (("(") ++ ct ++ (".initInstance(Parlang.alloc(undefined,undefined)))")).length)) :=
  ⟨rfl, rfl, rfl, rfl, newMac_unknownType, newMac_protoType⟩

/-- Witness for C4: both general clauses at concrete inputs. -/
theorem C4_alloc_witness :
    newMac pointEnv 1 ("@new Quux") 0 none (some ("Quux")) 9 =
      .error (("Unknown type argument to @new: ") ++ ("Quux")) ∧
    newMac pointEnv 1 ("@new toString") 0 none (some ("toString")) 13 =
      .ok ("(toString.initInstance(Parlang.alloc(undefined,undefined)))", 59) :=
  ⟨C4_alloc.2.2.2.2.1 pointEnv 0 ("@new Quux") 0 none ("Quux") 9 rfl rfl,
   C4_alloc.2.2.2.2.2 pointEnv 0 ("@new toString") 0 none ("toString") 13 rfl rfl⟩

/-- C7.  The expander is not idempotent on its own output: for a class
`Q` declaring a field named `initInstance`, the allocator pass (which
runs last) emits `(Q.initInstance(Parlang.alloc(8,4)))` for `@new Q`,
and a second expansion's accessor pass rewrites that call again. -/
theorem C7_counterexample :
    expandLine qEnv ("@new Q") = .ok ("(Q.initInstance(Parlang.alloc(8,4)))") ∧
    expandLine qEnv ("(Q.initInstance(Parlang.alloc(8,4)))") =
      .ok ("((_mem_int32[((Parlang.alloc(8,4))+4)>>2]))") ∧
    (("(Q.initInstance(Parlang.alloc(8,4)))" : String) ≠
      ("((_mem_int32[((Parlang.alloc(8,4))+4)>>2]))" : String)) :=
  ⟨rfl, rfl, by decide⟩

/-- C7 (amended).  The accessor macro's own outputs are fixed points of
the expander (no accessor, array or allocator pattern matches in them),
so re-expanding the rewrites of `Point.x(p)`, `Point.set_x(p, 10)` and
`Point.ref_x(p)` returns them unchanged; but the expander is not
idempotent on allocator output in general (see the counterexample with a
class field named `initInstance`). -/
theorem C7_idem :
    expandLine pointEnv ("(_mem_int32[(p+4)>>2])") =
      .ok ("(_mem_int32[(p+4)>>2])") ∧
    expandLine pointEnv ("(_mem_int32[(p+4)>>2] = 10)") =
      .ok ("(_mem_int32[(p+4)>>2] = 10)") ∧
    expandLine pointEnv ("(p+4)") = .ok ("(p+4)") :=
  ⟨rfl, rfl, rfl⟩

/-- C8.  The claim is false on the code: when the input ends after a
definition opener with no `} @end` line, the collector's inner loop
simply runs off the end of the file and the definition is recorded as if
closed; no unterminated-definition error exists and the collection
succeeds. -/
theorem C8_counterexample :
    collectDefinitions ("f") ["@shared class Foo \x7b"] =
      .ok ([.cls ("f") 1 ("Foo") ("") [] [] 0], []) :=
  rfl

/-- C8 (amended).  On end of file after an opener without a closing end
marker, the collector silently terminates the definition at EOF: any
method in progress is flushed (with the line counter at EOF) and the
definition is pushed, and collection returns successfully. -/
theorem C8_eof :
    collectDefinitions ("f")
        ["before", "@shared class Foo \x7b", "  x : int32;",
         "  @method m(self) \x7b", "    body"] =
      .ok ([.cls ("f") 2 ("Foo") ("")
              [⟨3, "x", .None, false, ("int32")⟩]
              [⟨5, .Virtual, "m", ["(self) \x7b", "    body"]⟩] 1],
           ["before"]) :=
  rfl

theorem arrMac_unknownType (env : Env) (f : Nat) (s : String) (p : Nat)
    (tn op : String) (fld : Option String) (mlen : Nat)
    (h1 : lookupT builtinsE tn = none) (h2 : lookupT env tn = none) :
    arrMac env (f + 1) s p tn op fld mlen =
      .error (("Internal: Unknown type in sizeofType: ") ++ tn) := by
  simp [arrMac, engine, findTypeE, h1, h2]

theorem accMac_unknownType (env : Env) (f : Nat) (s : String) (p : Nat)
    (cn : String) (op : Option String) (pn : String) (mlen : Nat)
    (h : lookupT env cn = none) (hp : protoKeysId.contains cn = false) :
    accMac env (f + 1) s p cn op pn mlen = .ok (s, p + mlen) := by
  have hp2 : cn ∉ protoKeysId := by simpa using hp
  simp [accMac, engine, jsGet, h, hp2]

theorem accMac_protoType (env : Env) (f : Nat) (s : String) (p : Nat)
    (cn : String) (op : Option String) (pn : String) (mlen : Nat)
    (h : lookupT env cn = none) (hp : protoKeysId.contains cn = true) :
    accMac env (f + 1) s p cn op pn mlen =
      .error ("TypeError: cls.findAccessibleFieldFor is not a function") := by
  have hp2 : cn ∈ protoKeysId := by simpa using hp
  simp [accMac, engine, jsGet, h, hp2]

/-- C10.  The claim's accessor half is false on the code: `accMacro`
reads `knownTypes[X]` without `hasOwnProperty`, so when `X` is one of
the `Object.prototype` method names — here the ordinary JS call
`toString.call(x)` — the lookup finds a truthy inherited function and
`cls.findAccessibleFieldFor(...)` crashes the translation with a
TypeError instead of leaving the text unchanged. -/
theorem C10_counterexample :
    expandLine pointEnv ("toString.call(x)") =
      .error ("TypeError: cls.findAccessibleFieldFor is not a function") ∧
    ¬ expandLine pointEnv ("toString.call(x)") = .ok ("toString.call(x)") := by
  have h1 : expandLine pointEnv ("toString.call(x)") =
      .error ("TypeError: cls.findAccessibleFieldFor is not a function") := rfl
  exact ⟨h1, fun h => Except.noConfusion (h1.symm.trans h)⟩

/-- C10 (amended).  `X.array_get(`/`X.array_set(` with `X` neither a
builtin primitive nor a declared type always aborts the translation:
`arrMacro` resolves `X` through `findType`, whose `hasOwnProperty`
probes miss and which then throws.  The plain accessor macro leaves such
text unchanged only when `X` is also not one of the seven
`Object.prototype` method names; for those names its unguarded
`knownTypes[X]` read is truthy and the translation crashes with a
TypeError.  Shown in general for the three macro paths and concretely
for whole-line expansion. -/
theorem C10_arrError :
    (∀ (env : Env) (f : Nat) (s : String) (p : Nat) (tn op : String)
        (fld : Option String) (mlen : Nat),
      lookupT builtinsE tn = none → lookupT env tn = none →
      arrMac env (f + 1) s p tn op fld mlen =
        .error (("Internal: Unknown type in sizeofType: ") ++ tn)) ∧
    (∀ (env : Env) (f : Nat) (s : String) (p : Nat) (cn : String)
        (op : Option String) (pn : String) (mlen : Nat),
      lookupT env cn = none → protoKeysId.contains cn = false →
      accMac env (f + 1) s p cn op pn mlen = .ok (s, p + mlen)) ∧
    (∀ (env : Env) (f : Nat) (s : String) (p : Nat) (cn : String)
        (op : Option String) (pn : String) (mlen : Nat),
      lookupT env cn = none → protoKeysId.contains cn = true →
      accMac env (f + 1) s p cn op pn mlen =
        .error ("TypeError: cls.findAccessibleFieldFor is not a function")) ∧
    expandLine pointEnv ("Q.array_get(a, i)") =
      .error ("Internal: Unknown type in sizeofType: Q") ∧
    expandLine pointEnv ("Q.array_set(a, i, v)") =
      .error ("Internal: Unknown type in sizeofType: Q") ∧
    expandLine pointEnv ("Q.x(p)") = .ok ("Q.x(p)") :=
  ⟨arrMac_unknownType, accMac_unknownType, accMac_protoType, rfl, rfl, rfl⟩

/-- Witness for C10: the three general clauses at concrete inputs. -/
theorem C10_arrError_witness :
    arrMac pointEnv 1 ("Q.array_get(a, i)") 0 ("Q") ("get") none 12 =
      .error (("Internal: Unknown type in sizeofType: ") ++ ("Q")) ∧
    accMac pointEnv 1 ("Q.x(p)") 0 ("Q") none ("x") 4 = .ok (("Q.x(p)"), 4) ∧
    accMac pointEnv 1 ("toString.call(x)") 0 ("toString") none ("call") 14 =
      .error ("TypeError: cls.findAccessibleFieldFor is not a function") :=
  ⟨C10_arrError.1 pointEnv 0 ("Q.array_get(a, i)") 0 ("Q") ("get") none 12 rfl rfl,
   C10_arrError.2.1 pointEnv 0 ("Q.x(p)") 0 ("Q") none ("x") 4 rfl rfl,
   C10_arrError.2.2.1 pointEnv 0 ("toString.call(x)") 0 ("toString") none ("call") 14 rfl rfl⟩

end Flat
